import Mathlib

/-!
Shallow embedding of the membership reconciliation data-access layer
(`backend/src/ee/services/group/user-group-membership-dal.ts`).

Tables are lists of rows; Knex query chains become list filters, joins become
nested `flatMap`s over the joined tables, `whereIn` becomes `List.contains`,
`pluck` becomes `map`, and the JS `new Set(...)` at the end of
`filterProjectsByUserMembership` becomes `List.dedup`.  A left join that is
immediately constrained by `whereNull` on the joined table's column becomes an
emptiness test on the matching rows; the left join against the encryption-key
table keeps genuine left-join semantics (one output row per matching key, a
single row with `none` when no key exists).  The `DatabaseError` wrapper is
modelled on a fallible storage layer where every table read is an
`Except String` value.
-/

/-- A row of the `ProjectMembership` table: direct user↔project membership. -/
structure ProjectMembershipRow where
  userId : String
  projectId : String
deriving DecidableEq

/-- A row of the `UserGroupMembership` table: user↔group membership with the
`isPending` invite flag. -/
structure UserGroupMembershipRow where
  id : String
  userId : String
  groupId : String
  isPending : Bool
deriving DecidableEq

/-- A row of the `GroupProjectMembership` table: group-level project grant. -/
structure GroupProjectMembershipRow where
  groupId : String
  projectId : String
deriving DecidableEq

/-- A row of the `Users` table (the columns this module touches). -/
structure UserRow where
  id : String
  username : String
  email : String
  firstName : String
  lastName : String
  isGhost : Bool
deriving DecidableEq

/-- A row of the `Groups` table (the columns this module touches). -/
structure GroupRow where
  id : String
  orgId : String
  name : String
  slug : String
  role : String
  roleId : Option String
deriving DecidableEq

/-- A row of the `UserEncryptionKey` table. -/
structure UserEncryptionKeyRow where
  userId : String
  publicKey : String
deriving DecidableEq

/-- The database state seen by the DAL: one list per table. -/
structure Db where
  projectMemberships : List ProjectMembershipRow
  userGroupMemberships : List UserGroupMembershipRow
  groupProjectMemberships : List GroupProjectMembershipRow
  users : List UserRow
  groups : List GroupRow
  userEncryptionKeys : List UserEncryptionKeyRow
deriving DecidableEq

/-- `filterProjectsByUserMembership(userId, groupId, projectIds)`:
first query plucks `projectId` from `ProjectMembership` rows with the given
`userId` and `projectId ∈ projectIds`; second query joins
`UserGroupMembership` (with `userId`, `groupId ≠ groupId`) to
`GroupProjectMembership` on `groupId` and plucks the project ids in
`projectIds`; the results are concatenated and deduplicated (`new Set`). -/
def filterProjectsByUserMembership (userId groupId : String) (projectIds : List String)
    (db : Db) : List String :=
  let userProjectMemberships : List String :=
    (db.projectMemberships.filter fun pm =>
      pm.userId == userId && projectIds.contains pm.projectId).map
      (fun pm => pm.projectId)
  let userGroupMemberships : List String :=
    (db.userGroupMemberships.filter fun ugm =>
      ugm.userId == userId && ugm.groupId != groupId).flatMap fun ugm =>
      (db.groupProjectMemberships.filter fun gpm =>
        gpm.groupId == ugm.groupId && projectIds.contains gpm.projectId).map
        (fun gpm => gpm.projectId)
  (userProjectMemberships ++ userGroupMemberships).dedup

/-- `findUserGroupMembershipsInProject(usernames, projectId)`:
joins `UserGroupMembership` to `GroupProjectMembership` on `groupId`
(restricted to `projectId`) and to `Users` on `userId` (restricted to
`usernames`), plucking `Users.id`.  No pending or ghost filter appears in the
query. -/
def findUserGroupMembershipsInProject (usernames : List String) (projectId : String)
    (db : Db) : List String :=
  db.userGroupMemberships.flatMap fun ugm =>
    (db.groupProjectMemberships.filter fun gpm =>
      gpm.groupId == ugm.groupId && gpm.projectId == projectId).flatMap fun _gpm =>
      (db.users.filter fun u =>
        ugm.userId == u.id && usernames.contains u.username).map
        (fun u => u.id)

/-- The nested `user` sub-object of a `findGroupMembersNotInProject` record. -/
structure MemberUser where
  email : String
  username : String
  firstName : String
  lastName : String
  id : String
  publicKey : Option String
deriving DecidableEq

/-- One record returned by `findGroupMembersNotInProject`: the membership-row
fields plus the nested user sub-object. -/
structure GroupMemberRecord where
  id : String
  groupId : String
  user : MemberUser
deriving DecidableEq

/-- `findGroupMembersNotInProject(groupId, projectId)`:
`groups` is the pluck of other groups granted to `projectId`; the main query
selects non-pending `UserGroupMembership` rows of `groupId`, joins `Users`
(with `isGhost = false`), keeps rows whose left join against
`ProjectMembership` restricted to `projectId` found nothing (`whereNull`),
drops rows whose `userId` occurs in a membership row of any group in `groups`
(`whereNotIn` with a sub-select), and left-joins the user's encryption key. -/
def findGroupMembersNotInProject (groupId projectId : String) (db : Db) :
    List GroupMemberRecord :=
  let groups : List String :=
    (db.groupProjectMemberships.filter fun gpm =>
      gpm.projectId == projectId && gpm.groupId != groupId).map
      (fun gpm => gpm.groupId)
  let excludedUserIds : List String :=
    (db.userGroupMemberships.filter fun x => groups.contains x.groupId).map
      (fun x => x.userId)
  db.userGroupMemberships.flatMap fun ugm =>
    if ugm.groupId == groupId && ugm.isPending == false
        && !(excludedUserIds.contains ugm.userId) then
      (db.users.filter fun u => u.id == ugm.userId && u.isGhost == false).flatMap fun u =>
        if db.projectMemberships.any fun pm =>
            pm.userId == u.id && pm.projectId == projectId then []
        else
          let keys := db.userEncryptionKeys.filter fun k => k.userId == u.id
          let publicKeys : List (Option String) :=
            if keys.isEmpty then [none] else keys.map fun k => some k.publicKey
          publicKeys.map fun pk =>
            { id := ugm.id, groupId := ugm.groupId,
              user := { email := u.email, username := u.username,
                        firstName := u.firstName, lastName := u.lastName,
                        id := u.id, publicKey := pk } }
    else []

/-- The `user` sub-object of a `deletePendingUserGroupMembershipsByUserIds`
report entry. -/
structure DeletedUser where
  id : String
  username : String
deriving DecidableEq

/-- The `group` sub-object of a report entry; `createdAt`/`updatedAt` are
synthesized at deletion time (`new Date()`), not the group's real
timestamps. -/
structure DeletedGroup where
  id : String
  orgId : String
  name : String
  slug : String
  role : String
  roleId : Option String
  createdAt : Nat
  updatedAt : Nat
deriving DecidableEq

/-- One `{user, group}` pair reported by
`deletePendingUserGroupMembershipsByUserIds`. -/
structure DeletedMembership where
  user : DeletedUser
  group : DeletedGroup
deriving DecidableEq

/-- `deletePendingUserGroupMembershipsByUserIds(userIds)`:
snapshots the pending membership rows with `userId ∈ userIds` joined to
`Groups` and `Users`, then deletes every `UserGroupMembership` row with
`userId ∈ userIds` (pending or not), and maps the snapshot to
`{user, group}` pairs with both timestamps set to the deletion time `now`.
Returns the report together with the post-delete database. -/
def deletePendingUserGroupMembershipsByUserIds (userIds : List String) (now : Nat)
    (db : Db) : List DeletedMembership × Db :=
  let members :=
    db.userGroupMemberships.filter fun ugm =>
      userIds.contains ugm.userId && ugm.isPending == true
  let report :=
    members.flatMap fun ugm =>
      (db.groups.filter fun g => ugm.groupId == g.id).flatMap fun g =>
        (db.users.filter fun u => ugm.userId == u.id).map fun u =>
          { user := { id := ugm.userId, username := u.username },
            group := { id := ugm.groupId, orgId := g.orgId, name := g.name,
                       slug := g.slug, role := g.role, roleId := g.roleId,
                       createdAt := now, updatedAt := now } }
  let remaining :=
    db.userGroupMemberships.filter fun ugm => !(userIds.contains ugm.userId)
  (report, { db with userGroupMemberships := remaining })

/-- The error thrown on storage failure: `DatabaseError({ error, name })`,
carrying the underlying cause and a fixed operation label. -/
structure DatabaseError where
  error : String
  name : String
deriving DecidableEq

/-- A fallible storage layer: each table read either yields the table's rows
or fails with an underlying storage fault. -/
structure FDb where
  projectMemberships : Except String (List ProjectMembershipRow)
  userGroupMemberships : Except String (List UserGroupMembershipRow)
  groupProjectMemberships : Except String (List GroupProjectMembershipRow)
  users : Except String (List UserRow)
  groups : Except String (List GroupRow)
  userEncryptionKeys : Except String (List UserEncryptionKeyRow)
  /-- Modelled from the spec: the outcome of the storage engine's bulk
  delete-by-filter write primitive, as invoked by `userGroupMembershipOrm.delete`
  (the `ormify` helper lives outside this excerpt).  The write runs inside the
  same `try/catch` as the snapshot read and may itself fail with a storage
  fault. -/
  userGroupMembershipsDeleteWrite : Except String Unit

/-- The `try/catch` wrapper of every DAL operation: a storage fault is
re-thrown as a `DatabaseError` carrying the original cause and the
operation's fixed label. -/
def wrapError (label : String) (x : Except String α) : Except DatabaseError α :=
  match x with
  | .ok a => .ok a
  | .error e => .error { error := e, name := label }

/-- Fallible `filterProjectsByUserMembership`: reads the three tables its two
queries touch, in query order, and computes the pure result; any storage
fault aborts the operation with the label
"Filter projects by user membership". -/
def filterProjectsByUserMembershipE (userId groupId : String) (projectIds : List String)
    (fdb : FDb) : Except DatabaseError (List String) :=
  wrapError "Filter projects by user membership" (do
    let pms ← fdb.projectMemberships
    let ugms ← fdb.userGroupMemberships
    let gpms ← fdb.groupProjectMemberships
    pure (filterProjectsByUserMembership userId groupId projectIds
      { projectMemberships := pms, userGroupMemberships := ugms,
        groupProjectMemberships := gpms, users := [], groups := [],
        userEncryptionKeys := [] }))

/-- Fallible `findUserGroupMembershipsInProject`; label
"Find user group members in project". -/
def findUserGroupMembershipsInProjectE (usernames : List String) (projectId : String)
    (fdb : FDb) : Except DatabaseError (List String) :=
  wrapError "Find user group members in project" (do
    let ugms ← fdb.userGroupMemberships
    let gpms ← fdb.groupProjectMemberships
    let us ← fdb.users
    pure (findUserGroupMembershipsInProject usernames projectId
      { projectMemberships := [], userGroupMemberships := ugms,
        groupProjectMemberships := gpms, users := us, groups := [],
        userEncryptionKeys := [] }))

/-- Fallible `findGroupMembersNotInProject`; label
"Find group members not in project". -/
def findGroupMembersNotInProjectE (groupId projectId : String) (fdb : FDb) :
    Except DatabaseError (List GroupMemberRecord) :=
  wrapError "Find group members not in project" (do
    let gpms ← fdb.groupProjectMemberships
    let ugms ← fdb.userGroupMemberships
    let us ← fdb.users
    let pms ← fdb.projectMemberships
    let keys ← fdb.userEncryptionKeys
    pure (findGroupMembersNotInProject groupId projectId
      { projectMemberships := pms, userGroupMemberships := ugms,
        groupProjectMemberships := gpms, users := us, groups := [],
        userEncryptionKeys := keys }))

/-- Fallible `deletePendingUserGroupMembershipsByUserIds`; label
"Delete pending user group memberships by user ids".  After the snapshot
read (`UserGroupMembership` joined to `Groups` and `Users`) the bulk delete
write runs inside the same `try/catch`, so its fault aborts the operation
with the same label. -/
def deletePendingUserGroupMembershipsByUserIdsE (userIds : List String) (now : Nat)
    (fdb : FDb) : Except DatabaseError (List DeletedMembership × Db) :=
  wrapError "Delete pending user group memberships by user ids" (do
    let ugms ← fdb.userGroupMemberships
    let gs ← fdb.groups
    let us ← fdb.users
    let _ ← fdb.userGroupMembershipsDeleteWrite
    pure (deletePendingUserGroupMembershipsByUserIds userIds now
      { projectMemberships := [], userGroupMemberships := ugms,
        groupProjectMemberships := [], users := us, groups := gs,
        userEncryptionKeys := [] }))

/-! ### Characterization of `filterProjectsByUserMembership` -/

/-- Membership characterization of `filterProjectsByUserMembership`: a project
is returned iff it is a candidate and the user reaches it directly or via a
non-excluded group. -/
theorem mem_filterProjectsByUserMembership (userId groupId p : String)
    (projectIds : List String) (db : Db) :
    p ∈ filterProjectsByUserMembership userId groupId projectIds db ↔
      p ∈ projectIds ∧
        ((∃ pm ∈ db.projectMemberships, pm.userId = userId ∧ pm.projectId = p) ∨
         ∃ ugm ∈ db.userGroupMemberships, ugm.userId = userId ∧ ugm.groupId ≠ groupId ∧
           ∃ gpm ∈ db.groupProjectMemberships, gpm.groupId = ugm.groupId ∧
             gpm.projectId = p) := by
  simp only [filterProjectsByUserMembership, List.mem_dedup, List.mem_append, List.mem_map,
    List.mem_filter, List.mem_flatMap, Bool.and_eq_true, beq_iff_eq, bne_iff_ne,
    List.contains_eq_any_beq, List.any_eq_true]
  constructor
  · rintro (⟨pm, ⟨hpm, hu, hin⟩, rfl⟩ | ⟨ugm, ⟨hugm, hu, hne⟩, gpm, ⟨hgpm, hg, hin⟩, rfl⟩)
    · exact ⟨by obtain ⟨q, hq, hbq⟩ := hin; simp_all, Or.inl ⟨pm, hpm, hu, rfl⟩⟩
    · exact ⟨by obtain ⟨q, hq, hbq⟩ := hin; simp_all,
        Or.inr ⟨ugm, hugm, hu, hne, gpm, hgpm, hg, rfl⟩⟩
  · rintro ⟨hp, ⟨pm, hpm, hu, rfl⟩ | ⟨ugm, hugm, hu, hne, gpm, hgpm, hg, rfl⟩⟩
    · exact Or.inl ⟨pm, ⟨hpm, hu, ⟨_, hp, by simp⟩⟩, rfl⟩
    · exact Or.inr ⟨ugm, ⟨hugm, hu, hne⟩, gpm, ⟨hgpm, hg, ⟨_, hp, by simp⟩⟩, rfl⟩

/-- C1: `FilterProjectsByUserMembership` returns exactly the deduplicated
union A ∪ B — A the candidates with a direct `ProjectMembership` row for
`userId`, B the candidates reachable via a `UserGroupMembership` row for
`userId` whose `groupId` differs from the excluded group joined through
`GroupProjectMembership`; each returned project appears exactly once and lies
in the candidate list. -/
theorem filterProjects_union_characterization (userId groupId : String)
    (projectIds : List String) (db : Db) :
    (filterProjectsByUserMembership userId groupId projectIds db).Nodup ∧
    ∀ p, p ∈ filterProjectsByUserMembership userId groupId projectIds db ↔
      p ∈ projectIds ∧
        ((∃ pm ∈ db.projectMemberships, pm.userId = userId ∧ pm.projectId = p) ∨
         ∃ ugm ∈ db.userGroupMemberships, ugm.userId = userId ∧ ugm.groupId ≠ groupId ∧
           ∃ gpm ∈ db.groupProjectMemberships, gpm.groupId = ugm.groupId ∧
             gpm.projectId = p) :=
  ⟨List.nodup_dedup _, fun p => mem_filterProjectsByUserMembership userId groupId p projectIds db⟩

/-- C9: an empty candidate list yields an empty result. -/
theorem filterProjects_empty_candidates (userId groupId : String) (db : Db) :
    filterProjectsByUserMembership userId groupId [] db = [] := by
  rw [List.eq_nil_iff_forall_not_mem]
  intro p hp
  exact absurd ((mem_filterProjectsByUserMembership userId groupId p [] db).1 hp).1
    (List.not_mem_nil p)

/-- C3: if the user has no direct `ProjectMembership` row for `p` and no
group path to `p` avoiding the excluded group, then `p` is absent from the
result of `FilterProjectsByUserMembership`. -/
theorem filterProjects_excluded_only_path (userId groupId p : String)
    (projectIds : List String) (db : Db)
    (hdirect : ∀ pm ∈ db.projectMemberships, pm.userId = userId → pm.projectId ≠ p)
    (hgroup : ∀ ugm ∈ db.userGroupMemberships, ugm.userId = userId →
      ugm.groupId ≠ groupId →
      ∀ gpm ∈ db.groupProjectMemberships, gpm.groupId = ugm.groupId →
        gpm.projectId ≠ p) :
    p ∉ filterProjectsByUserMembership userId groupId projectIds db := by
  intro hp
  rcases (mem_filterProjectsByUserMembership userId groupId p projectIds db).1 hp with
    ⟨-, ⟨pm, hpm, hu, hproj⟩ | ⟨ugm, hugm, hu, hne, gpm, hgpm, hg, hproj⟩⟩
  · exact hdirect pm hpm hu hproj
  · exact hgroup ugm hugm hu hne gpm hgpm hg hproj

/-- A database where user `u1`'s only path into project `p1` is the pending
membership in group `g1`, which grants `p1`. -/
def dbOnlyExcludedPath : Db :=
  { projectMemberships := [],
    userGroupMemberships := [⟨"m1", "u1", "g1", true⟩],
    groupProjectMemberships := [⟨"g1", "p1"⟩],
    users := [⟨"u1", "alice", "a@x", "A", "L", false⟩],
    groups := [⟨"g1", "o1", "G One", "g-one", "member", none⟩],
    userEncryptionKeys := [] }

/-- Witness for C3: with `g1` excluded, `p1` drops out for `u1`. -/
theorem filterProjects_excluded_only_path_witness :
    "p1" ∉ filterProjectsByUserMembership "u1" "g1" ["p1"] dbOnlyExcludedPath :=
  filterProjects_excluded_only_path "u1" "g1" "p1" ["p1"] dbOnlyExcludedPath
    (by decide) (by decide)

/-- C7: `FilterProjectsByUserMembership` applies no pending filter to
group-derived paths: a candidate project reachable via a pending membership
in a non-excluded group is included in the result. -/
theorem filterProjects_no_pending_filter (userId groupId p : String)
    (projectIds : List String) (db : Db)
    (h : ∃ ugm ∈ db.userGroupMemberships, ugm.userId = userId ∧
      ugm.groupId ≠ groupId ∧ ugm.isPending = true ∧
      ∃ gpm ∈ db.groupProjectMemberships, gpm.groupId = ugm.groupId ∧
        gpm.projectId = p)
    (hp : p ∈ projectIds) :
    p ∈ filterProjectsByUserMembership userId groupId projectIds db := by
  obtain ⟨ugm, hugm, hu, hne, _hpend, gpm, hgpm, hg, hproj⟩ := h
  exact (mem_filterProjectsByUserMembership userId groupId p projectIds db).2
    ⟨hp, Or.inr ⟨ugm, hugm, hu, hne, gpm, hgpm, hg, hproj⟩⟩

/-- A database where user `u1` reaches project `p2` only through a pending
membership in group `g2`; group `g1` is the excluded one. -/
def dbPendingGroupPath : Db :=
  { projectMemberships := [],
    userGroupMemberships := [⟨"m1", "u1", "g2", true⟩],
    groupProjectMemberships := [⟨"g2", "p2"⟩],
    users := [⟨"u1", "alice", "a@x", "A", "L", false⟩],
    groups := [⟨"g2", "o1", "G Two", "g-two", "member", none⟩],
    userEncryptionKeys := [] }

/-- Witness for C7: the pending group path still yields `p2`. -/
theorem filterProjects_no_pending_filter_witness :
    "p2" ∈ filterProjectsByUserMembership "u1" "g1" ["p2"] dbPendingGroupPath :=
  filterProjects_no_pending_filter "u1" "g1" "p2" ["p2"] dbPendingGroupPath
    (by decide) (by decide)

/-! ### Characterization of `findGroupMembersNotInProject` -/

/-- Soundness of `findGroupMembersNotInProject`: every returned record comes
from a non-pending membership row of `groupId` whose user exists, is not a
ghost, has no direct `ProjectMembership` row for `projectId`, and is not a
member of any other group granted to `projectId`. -/
theorem mem_findGroupMembersNotInProject_sound (groupId projectId : String) (db : Db)
    (r : GroupMemberRecord) (hr : r ∈ findGroupMembersNotInProject groupId projectId db) :
    ∃ ugm ∈ db.userGroupMemberships, ugm.groupId = groupId ∧ ugm.isPending = false ∧
      r.id = ugm.id ∧ r.groupId = ugm.groupId ∧ r.user.id = ugm.userId ∧
      (∀ x ∈ db.userGroupMemberships, x.userId = ugm.userId →
        ∀ gpm ∈ db.groupProjectMemberships, gpm.projectId = projectId →
          gpm.groupId ≠ groupId → gpm.groupId ≠ x.groupId) ∧
      ∃ u ∈ db.users, u.id = ugm.userId ∧ u.isGhost = false ∧
        (∀ pm ∈ db.projectMemberships, pm.userId = u.id → pm.projectId ≠ projectId) := by
  simp only [findGroupMembersNotInProject, List.mem_flatMap] at hr
  obtain ⟨ugm, hugm, hr⟩ := hr
  split at hr
  case isFalse => exact absurd hr (List.not_mem_nil r)
  case isTrue hc =>
    rw [Bool.and_eq_true, Bool.and_eq_true] at hc
    obtain ⟨⟨hgid, hpend⟩, hexcl⟩ := hc
    rw [Bool.not_eq_true'] at hexcl
    rw [beq_iff_eq] at hgid
    simp only [List.mem_flatMap, List.mem_filter, Bool.and_eq_true, beq_iff_eq] at hr
    obtain ⟨u, ⟨humem, huid, hghost⟩, hr⟩ := hr
    split at hr
    case isTrue => exact absurd hr (List.not_mem_nil r)
    case isFalse hpm =>
      simp only [List.any_eq_true, List.mem_map, Bool.and_eq_true, beq_iff_eq,
        not_exists, not_and] at hpm
      simp only [List.mem_map] at hr
      obtain ⟨pk, _hpk, hrec⟩ := hr
      refine ⟨ugm, hugm, hgid, by simpa using hpend, ?_, ?_, ?_, ?_, ?_⟩
      · rw [← hrec]
      · rw [← hrec]
      · rw [← hrec]; exact huid
      · intro x hx hxu gpm hgpm hproj hne heq
        simp only [List.contains_eq_any_beq, List.any_eq_false, List.any_eq_true,
          List.mem_map, List.mem_filter, Bool.and_eq_true, beq_iff_eq, bne_iff_ne,
          not_exists, not_and] at hexcl
        exact hexcl x.userId ⟨x, ⟨hx, x.groupId, ⟨gpm, ⟨hgpm, hproj, hne⟩, heq⟩, rfl⟩, rfl⟩
          hxu.symm
      · exact ⟨u, humem, huid, by simpa using hghost,
          fun pm hpm2 hpu hpp => hpm pm hpm2 (by rw [hpu]) hpp⟩

/-- Any user holding a membership row in another group granted to the project
is absent from `findGroupMembersNotInProject`'s result (the `whereNotIn`
sub-select); the other row's `isPending` flag plays no role. -/
theorem user_with_other_group_path_not_returned (groupId projectId uid : String)
    (db : Db)
    (h : ∃ ugm2 ∈ db.userGroupMemberships, ugm2.userId = uid ∧ ugm2.groupId ≠ groupId ∧
      ∃ gpm ∈ db.groupProjectMemberships, gpm.groupId = ugm2.groupId ∧
        gpm.projectId = projectId) :
    ∀ r ∈ findGroupMembersNotInProject groupId projectId db, r.user.id ≠ uid := by
  obtain ⟨ugm2, hugm2, hu2, hne2, gpm, hgpm, hgg, hgp⟩ := h
  intro r hr heq
  obtain ⟨ugm, hugm, hgid, hpend, hid, hgid2, huid, hforall, -⟩ :=
    mem_findGroupMembersNotInProject_sound groupId projectId db r hr
  exact hforall ugm2 hugm2 (by rw [hu2, ← heq, huid]) gpm hgpm hgp
    (by rw [hgg]; exact hne2) hgg

/-- C4: every record returned by `FindGroupMembersNotInProject` corresponds
to a non-pending membership row of `groupId` whose user is not ghost-flagged
and has no direct `ProjectMembership` row for `projectId`; ghost users and
pending members are never returned. -/
theorem findGroupMembers_filters (groupId projectId : String) (db : Db)
    (r : GroupMemberRecord) (hr : r ∈ findGroupMembersNotInProject groupId projectId db) :
    ∃ ugm ∈ db.userGroupMemberships, ugm.groupId = groupId ∧ ugm.isPending = false ∧
      r.id = ugm.id ∧ r.user.id = ugm.userId ∧
      ∃ u ∈ db.users, u.id = ugm.userId ∧ u.isGhost = false ∧
        ∀ pm ∈ db.projectMemberships, pm.userId = u.id → pm.projectId ≠ projectId := by
  obtain ⟨ugm, hugm, h1, h2, h3, _h4, h5, _h6, u, hu, h7, h8, h9⟩ :=
    mem_findGroupMembersNotInProject_sound groupId projectId db r hr
  exact ⟨ugm, hugm, h1, h2, h3, h5, u, hu, h7, h8, h9⟩

/-- A database with a single accepted, non-ghost member `u1` of group `g1`
and no other membership rows. -/
def dbLoneMember : Db :=
  { projectMemberships := [],
    userGroupMemberships := [⟨"m1", "u1", "g1", false⟩],
    groupProjectMemberships := [],
    users := [⟨"u1", "alice", "a@x", "A", "L", false⟩],
    groups := [⟨"g1", "o1", "G One", "g-one", "member", none⟩],
    userEncryptionKeys := [] }

/-- The record `findGroupMembersNotInProject "g1" "p1" dbLoneMember`
produces for `u1` (no encryption key, so `publicKey = none`). -/
def loneMemberRecord : GroupMemberRecord :=
  ⟨"m1", "g1", ⟨"a@x", "alice", "A", "L", "u1", none⟩⟩

/-- Witness for C4 at `dbLoneMember`. -/
theorem findGroupMembers_filters_witness :
    ∃ ugm ∈ dbLoneMember.userGroupMemberships, ugm.groupId = "g1" ∧
      ugm.isPending = false ∧ loneMemberRecord.id = ugm.id ∧
      loneMemberRecord.user.id = ugm.userId ∧
      ∃ u ∈ dbLoneMember.users, u.id = ugm.userId ∧ u.isGhost = false ∧
        ∀ pm ∈ dbLoneMember.projectMemberships, pm.userId = u.id →
          pm.projectId ≠ "p1" :=
  findGroupMembers_filters "g1" "p1" dbLoneMember loneMemberRecord (by decide)

/-- C5: a user who appears in a `UserGroupMembership` row of some other group
holding a `GroupProjectMembership` to the project is excluded from the result
of `FindGroupMembersNotInProject`. -/
theorem findGroupMembers_redundancy_exclusion (groupId projectId uid : String)
    (db : Db)
    (h : ∃ ugm2 ∈ db.userGroupMemberships, ugm2.userId = uid ∧ ugm2.groupId ≠ groupId ∧
      ∃ gpm ∈ db.groupProjectMemberships, gpm.groupId = ugm2.groupId ∧
        gpm.projectId = projectId) :
    ∀ r ∈ findGroupMembersNotInProject groupId projectId db, r.user.id ≠ uid :=
  user_with_other_group_path_not_returned groupId projectId uid db h

/-- A database where `u1` and `u2` are accepted members of `g1`; `u2` is also
an accepted member of `g2`, which is granted to project `p1`. -/
def dbRedundantMember : Db :=
  { projectMemberships := [],
    userGroupMemberships := [⟨"m1", "u1", "g1", false⟩, ⟨"m2", "u2", "g1", false⟩,
      ⟨"m3", "u2", "g2", false⟩],
    groupProjectMemberships := [⟨"g2", "p1"⟩],
    users := [⟨"u1", "alice", "a@x", "A", "L", false⟩,
      ⟨"u2", "bob", "b@x", "B", "M", false⟩],
    groups := [⟨"g1", "o1", "G One", "g-one", "member", none⟩,
      ⟨"g2", "o1", "G Two", "g-two", "member", none⟩],
    userEncryptionKeys := [] }

/-- The record `findGroupMembersNotInProject "g1" "p1" dbRedundantMember`
produces for `u1`. -/
def redundantSurvivorRecord : GroupMemberRecord :=
  ⟨"m1", "g1", ⟨"a@x", "alice", "A", "L", "u1", none⟩⟩

/-- Witness for C5 at `dbRedundantMember`: the surviving record is not
`u2`'s. -/
theorem findGroupMembers_redundancy_exclusion_witness :
    redundantSurvivorRecord.user.id ≠ "u2" :=
  findGroupMembers_redundancy_exclusion "g1" "p1" "u2" dbRedundantMember (by decide)
    redundantSurvivorRecord (by decide)

/-- C6: the other-group exclusion of `FindGroupMembersNotInProject` ignores
`isPending`: a non-pending, non-ghost member of `groupId` with no direct
`ProjectMembership` for the project is still excluded when their membership
in another project-granted group is merely pending. -/
theorem findGroupMembers_pending_redundancy_exclusion (groupId projectId uid : String)
    (db : Db)
    (_hmem : ∃ ugm ∈ db.userGroupMemberships, ugm.groupId = groupId ∧
      ugm.userId = uid ∧ ugm.isPending = false)
    (_huser : ∃ u ∈ db.users, u.id = uid ∧ u.isGhost = false)
    (_hnodirect : ∀ pm ∈ db.projectMemberships, pm.userId = uid →
      pm.projectId ≠ projectId)
    (hother : ∃ ugm2 ∈ db.userGroupMemberships, ugm2.userId = uid ∧
      ugm2.groupId ≠ groupId ∧ ugm2.isPending = true ∧
      ∃ gpm ∈ db.groupProjectMemberships, gpm.groupId = ugm2.groupId ∧
        gpm.projectId = projectId) :
    ∀ r ∈ findGroupMembersNotInProject groupId projectId db, r.user.id ≠ uid := by
  obtain ⟨ugm2, hugm2, hu2, hne2, _hpend2, gpm, hgpm, hgg, hgp⟩ := hother
  exact user_with_other_group_path_not_returned groupId projectId uid db
    ⟨ugm2, hugm2, hu2, hne2, gpm, hgpm, hgg, hgp⟩

/-- Like `dbRedundantMember`, but `u2`'s membership in `g2` is still
pending: `u2` is a fully qualified member of `g1`, yet the sub-select still
drops them. -/
def dbPendingRedundantMember : Db :=
  { projectMemberships := [],
    userGroupMemberships := [⟨"m1", "u1", "g1", false⟩, ⟨"m2", "u2", "g1", false⟩,
      ⟨"m3", "u2", "g2", true⟩],
    groupProjectMemberships := [⟨"g2", "p1"⟩],
    users := [⟨"u1", "alice", "a@x", "A", "L", false⟩,
      ⟨"u2", "bob", "b@x", "B", "M", false⟩],
    groups := [⟨"g1", "o1", "G One", "g-one", "member", none⟩,
      ⟨"g2", "o1", "G Two", "g-two", "member", none⟩],
    userEncryptionKeys := [] }

/-- The record `findGroupMembersNotInProject "g1" "p1" dbPendingRedundantMember`
produces for `u1`. -/
def pendingRedundantSurvivorRecord : GroupMemberRecord :=
  ⟨"m1", "g1", ⟨"a@x", "alice", "A", "L", "u1", none⟩⟩

/-- Witness for C6 at `dbPendingRedundantMember`. -/
theorem findGroupMembers_pending_redundancy_exclusion_witness :
    pendingRedundantSurvivorRecord.user.id ≠ "u2" :=
  findGroupMembers_pending_redundancy_exclusion "g1" "p1" "u2" dbPendingRedundantMember
    (by decide) (by decide) (by decide) (by decide)
    pendingRedundantSurvivorRecord (by decide)

/-! ### `findUserGroupMembershipsInProject` and
`deletePendingUserGroupMembershipsByUserIds` -/

/-- C8: `FindUserIdsOfGroupMembersInProject` returns the ids of exactly the
users whose username is listed and who hold a `UserGroupMembership` row whose
group has a `GroupProjectMembership` to the project; the characterization has
no `isPending` or `isGhost` condition, so pending group members and ghost
users are included. -/
theorem mem_findUserGroupMembershipsInProject (usernames : List String)
    (projectId x : String) (db : Db) :
    x ∈ findUserGroupMembershipsInProject usernames projectId db ↔
      ∃ ugm ∈ db.userGroupMemberships,
        (∃ gpm ∈ db.groupProjectMemberships, gpm.groupId = ugm.groupId ∧
          gpm.projectId = projectId) ∧
        ∃ u ∈ db.users, ugm.userId = u.id ∧ u.username ∈ usernames ∧ u.id = x := by
  simp only [findUserGroupMembershipsInProject, List.mem_flatMap, List.mem_filter,
    List.mem_map, Bool.and_eq_true, beq_iff_eq, List.contains_eq_any_beq,
    List.any_eq_true]
  constructor
  · rintro ⟨ugm, hugm, gpm, ⟨hgpm, hgg, hgp⟩, u, ⟨hu, huid, q, hq, hbq⟩, rfl⟩
    exact ⟨ugm, hugm, ⟨gpm, hgpm, hgg, hgp⟩, u, hu, huid, by simp_all, rfl⟩
  · rintro ⟨ugm, hugm, ⟨gpm, hgpm, hgg, hgp⟩, u, hu, huid, hun, rfl⟩
    exact ⟨ugm, hugm, gpm, ⟨hgpm, hgg, hgp⟩, u, ⟨hu, huid, u.username, hun, by simp⟩, rfl⟩

/-- C2: the report of `DeletePendingMembershipsByUserIds` holds exactly the
`(user, group)` pairs that were pending at call time for the given `userIds`
(under referential integrity of the membership rows), while the delete
removes every membership row of those users, pending or not; accepted
memberships are deleted but never reported. -/
theorem deletePending_snapshot_semantics (userIds : List String) (now : Nat) (db : Db)
    (hg : ∀ ugm ∈ db.userGroupMemberships, ∃ g ∈ db.groups, g.id = ugm.groupId)
    (hu : ∀ ugm ∈ db.userGroupMemberships, ∃ u ∈ db.users, u.id = ugm.userId) :
    (∀ uid gid,
      (∃ r ∈ (deletePendingUserGroupMembershipsByUserIds userIds now db).1,
          r.user.id = uid ∧ r.group.id = gid) ↔
        ∃ ugm ∈ db.userGroupMemberships, ugm.userId = uid ∧ ugm.groupId = gid ∧
          ugm.isPending = true ∧ uid ∈ userIds) ∧
    (deletePendingUserGroupMembershipsByUserIds userIds now db).2.userGroupMemberships =
      db.userGroupMemberships.filter (fun ugm => !(userIds.contains ugm.userId)) := by
  constructor
  · intro uid gid
    simp only [deletePendingUserGroupMembershipsByUserIds, List.mem_flatMap,
      List.mem_filter, List.mem_map, Bool.and_eq_true, beq_iff_eq,
      List.contains_eq_any_beq, List.any_eq_true]
    constructor
    · rintro ⟨r, ⟨ugm, ⟨hugm, ⟨q, hq, hbq⟩, hpend⟩, g, ⟨hg2, hgid⟩, u, ⟨hu2, huid⟩, rfl⟩,
        h1, h2⟩
      simp only at h1 h2
      subst h1 h2
      exact ⟨ugm, hugm, rfl, rfl, hpend, by simp_all⟩
    · rintro ⟨ugm, hugm, rfl, rfl, hpend, hin⟩
      obtain ⟨g, hg2, hgid⟩ := hg ugm hugm
      obtain ⟨u, hu2, huid⟩ := hu ugm hugm
      exact ⟨_, ⟨ugm, ⟨hugm, ⟨ugm.userId, hin, by simp⟩, hpend⟩, g, ⟨hg2, hgid.symm⟩,
        u, ⟨hu2, huid.symm⟩, rfl⟩, rfl, rfl⟩
  · rfl

/-- A database where `u1` has one pending membership (`g1`) and one accepted
membership (`g2`). -/
def dbPendingAndAccepted : Db :=
  { projectMemberships := [],
    userGroupMemberships := [⟨"m1", "u1", "g1", true⟩, ⟨"m2", "u1", "g2", false⟩],
    groupProjectMemberships := [],
    users := [⟨"u1", "alice", "a@x", "A", "L", false⟩],
    groups := [⟨"g1", "o1", "G One", "g-one", "member", none⟩,
      ⟨"g2", "o1", "G Two", "g-two", "member", none⟩],
    userEncryptionKeys := [] }

/-- Witness for C2 at `dbPendingAndAccepted` with `userIds = ["u1"]`: the
pending pair `("u1", "g1")` is reported and the post-state drops both of
`u1`'s membership rows. -/
theorem deletePending_snapshot_semantics_witness :
    ((∃ r ∈ (deletePendingUserGroupMembershipsByUserIds ["u1"] 0 dbPendingAndAccepted).1,
        r.user.id = "u1" ∧ r.group.id = "g1") ↔
      ∃ ugm ∈ dbPendingAndAccepted.userGroupMemberships, ugm.userId = "u1" ∧
        ugm.groupId = "g1" ∧ ugm.isPending = true ∧ "u1" ∈ ["u1"]) ∧
    (deletePendingUserGroupMembershipsByUserIds
        ["u1"] 0 dbPendingAndAccepted).2.userGroupMemberships =
      dbPendingAndAccepted.userGroupMemberships.filter
        (fun ugm => !((["u1"] : List String).contains ugm.userId)) :=
  ⟨(deletePending_snapshot_semantics ["u1"] 0 dbPendingAndAccepted (by decide)
      (by decide)).1 "u1" "g1",
   (deletePending_snapshot_semantics ["u1"] 0 dbPendingAndAccepted (by decide)
      (by decide)).2⟩

/-! ### Storage-failure behaviour -/

/-- C10: a storage fault forces the operation to abort.  For each of the four
operations, read by read in query order: if every earlier read succeeded and
this read fails, the operation returns exactly the single `DatabaseError`
carrying that original fault and the operation's fixed label (so no result is
returned and no partial recovery happens); for the delete operation the bulk
delete write inside the same `try/catch` is a further failure point.  When
every storage access succeeds, the operation returns its result. -/
theorem dal_storage_failure_semantics (userId groupId projectId : String)
    (projectIds usernames userIds : List String) (now : Nat) (fdb : FDb) :
    ((∀ e, fdb.projectMemberships = .error e →
        filterProjectsByUserMembershipE userId groupId projectIds fdb =
          .error { error := e, name := "Filter projects by user membership" }) ∧
     (∀ pms e, fdb.projectMemberships = .ok pms →
        fdb.userGroupMemberships = .error e →
        filterProjectsByUserMembershipE userId groupId projectIds fdb =
          .error { error := e, name := "Filter projects by user membership" }) ∧
     (∀ pms ugms e, fdb.projectMemberships = .ok pms →
        fdb.userGroupMemberships = .ok ugms →
        fdb.groupProjectMemberships = .error e →
        filterProjectsByUserMembershipE userId groupId projectIds fdb =
          .error { error := e, name := "Filter projects by user membership" }) ∧
     (∀ pms ugms gpms, fdb.projectMemberships = .ok pms →
        fdb.userGroupMemberships = .ok ugms →
        fdb.groupProjectMemberships = .ok gpms →
        filterProjectsByUserMembershipE userId groupId projectIds fdb =
          .ok (filterProjectsByUserMembership userId groupId projectIds
            { projectMemberships := pms, userGroupMemberships := ugms,
              groupProjectMemberships := gpms, users := [], groups := [],
              userEncryptionKeys := [] }))) ∧
    ((∀ e, fdb.userGroupMemberships = .error e →
        findUserGroupMembershipsInProjectE usernames projectId fdb =
          .error { error := e, name := "Find user group members in project" }) ∧
     (∀ ugms e, fdb.userGroupMemberships = .ok ugms →
        fdb.groupProjectMemberships = .error e →
        findUserGroupMembershipsInProjectE usernames projectId fdb =
          .error { error := e, name := "Find user group members in project" }) ∧
     (∀ ugms gpms e, fdb.userGroupMemberships = .ok ugms →
        fdb.groupProjectMemberships = .ok gpms →
        fdb.users = .error e →
        findUserGroupMembershipsInProjectE usernames projectId fdb =
          .error { error := e, name := "Find user group members in project" }) ∧
     (∀ ugms gpms us, fdb.userGroupMemberships = .ok ugms →
        fdb.groupProjectMemberships = .ok gpms →
        fdb.users = .ok us →
        findUserGroupMembershipsInProjectE usernames projectId fdb =
          .ok (findUserGroupMembershipsInProject usernames projectId
            { projectMemberships := [], userGroupMemberships := ugms,
              groupProjectMemberships := gpms, users := us, groups := [],
              userEncryptionKeys := [] }))) ∧
    ((∀ e, fdb.groupProjectMemberships = .error e →
        findGroupMembersNotInProjectE groupId projectId fdb =
          .error { error := e, name := "Find group members not in project" }) ∧
     (∀ gpms e, fdb.groupProjectMemberships = .ok gpms →
        fdb.userGroupMemberships = .error e →
        findGroupMembersNotInProjectE groupId projectId fdb =
          .error { error := e, name := "Find group members not in project" }) ∧
     (∀ gpms ugms e, fdb.groupProjectMemberships = .ok gpms →
        fdb.userGroupMemberships = .ok ugms →
        fdb.users = .error e →
        findGroupMembersNotInProjectE groupId projectId fdb =
          .error { error := e, name := "Find group members not in project" }) ∧
     (∀ gpms ugms us e, fdb.groupProjectMemberships = .ok gpms →
        fdb.userGroupMemberships = .ok ugms →
        fdb.users = .ok us →
        fdb.projectMemberships = .error e →
        findGroupMembersNotInProjectE groupId projectId fdb =
          .error { error := e, name := "Find group members not in project" }) ∧
     (∀ gpms ugms us pms e, fdb.groupProjectMemberships = .ok gpms →
        fdb.userGroupMemberships = .ok ugms →
        fdb.users = .ok us →
        fdb.projectMemberships = .ok pms →
        fdb.userEncryptionKeys = .error e →
        findGroupMembersNotInProjectE groupId projectId fdb =
          .error { error := e, name := "Find group members not in project" }) ∧
     (∀ gpms ugms us pms keys, fdb.groupProjectMemberships = .ok gpms →
        fdb.userGroupMemberships = .ok ugms →
        fdb.users = .ok us →
        fdb.projectMemberships = .ok pms →
        fdb.userEncryptionKeys = .ok keys →
        findGroupMembersNotInProjectE groupId projectId fdb =
          .ok (findGroupMembersNotInProject groupId projectId
            { projectMemberships := pms, userGroupMemberships := ugms,
              groupProjectMemberships := gpms, users := us, groups := [],
              userEncryptionKeys := keys }))) ∧
    ((∀ e, fdb.userGroupMemberships = .error e →
        deletePendingUserGroupMembershipsByUserIdsE userIds now fdb =
          .error { error := e,
                   name := "Delete pending user group memberships by user ids" }) ∧
     (∀ ugms e, fdb.userGroupMemberships = .ok ugms →
        fdb.groups = .error e →
        deletePendingUserGroupMembershipsByUserIdsE userIds now fdb =
          .error { error := e,
                   name := "Delete pending user group memberships by user ids" }) ∧
     (∀ ugms gs e, fdb.userGroupMemberships = .ok ugms →
        fdb.groups = .ok gs →
        fdb.users = .error e →
        deletePendingUserGroupMembershipsByUserIdsE userIds now fdb =
          .error { error := e,
                   name := "Delete pending user group memberships by user ids" }) ∧
     (∀ ugms gs us e, fdb.userGroupMemberships = .ok ugms →
        fdb.groups = .ok gs →
        fdb.users = .ok us →
        fdb.userGroupMembershipsDeleteWrite = .error e →
        deletePendingUserGroupMembershipsByUserIdsE userIds now fdb =
          .error { error := e,
                   name := "Delete pending user group memberships by user ids" }) ∧
     (∀ ugms gs us, fdb.userGroupMemberships = .ok ugms →
        fdb.groups = .ok gs →
        fdb.users = .ok us →
        fdb.userGroupMembershipsDeleteWrite = .ok () →
        deletePendingUserGroupMembershipsByUserIdsE userIds now fdb =
          .ok (deletePendingUserGroupMembershipsByUserIds userIds now
            { projectMemberships := [], userGroupMemberships := ugms,
              groupProjectMemberships := [], users := us, groups := gs,
              userEncryptionKeys := [] }))) := by
  refine ⟨⟨?_, ?_, ?_, ?_⟩, ⟨?_, ?_, ?_, ?_⟩, ⟨?_, ?_, ?_, ?_, ?_, ?_⟩,
    ⟨?_, ?_, ?_, ?_, ?_⟩⟩ <;>
    · intros
      simp_all [filterProjectsByUserMembershipE, findUserGroupMembershipsInProjectE,
        findGroupMembersNotInProjectE, deletePendingUserGroupMembershipsByUserIdsE,
        wrapError, Bind.bind, Except.bind, Pure.pure, Except.pure]

/-- A storage layer on which every access, reads and the delete write alike,
fails with the fault "boom". -/
def fdbAllFailing : FDb :=
  ⟨.error "boom", .error "boom", .error "boom", .error "boom", .error "boom",
   .error "boom", .error "boom"⟩

/-- A storage layer on which every access succeeds (all tables empty). -/
def fdbAllOk : FDb :=
  ⟨.ok [], .ok [], .ok [], .ok [], .ok [], .ok [], .ok ()⟩

/-- A storage layer on which every read succeeds but the bulk delete write
fails with the fault "disk". -/
def fdbWriteFailing : FDb :=
  ⟨.ok [], .ok [], .ok [], .ok [], .ok [], .ok [], .error "disk"⟩

/-- Witness for C10: at `fdbAllFailing` each operation aborts with its fixed
label and the original fault; at `fdbWriteFailing` the delete operation
aborts on the write's own fault; at `fdbAllOk` the first operation
succeeds. -/
theorem dal_storage_failure_semantics_witness :
    filterProjectsByUserMembershipE "u1" "g1" ["p1"] fdbAllFailing =
        .error { error := "boom", name := "Filter projects by user membership" } ∧
    findUserGroupMembershipsInProjectE ["alice"] "p1" fdbAllFailing =
        .error { error := "boom", name := "Find user group members in project" } ∧
    findGroupMembersNotInProjectE "g1" "p1" fdbAllFailing =
        .error { error := "boom", name := "Find group members not in project" } ∧
    deletePendingUserGroupMembershipsByUserIdsE ["u1"] 0 fdbAllFailing =
        .error { error := "boom",
                 name := "Delete pending user group memberships by user ids" } ∧
    deletePendingUserGroupMembershipsByUserIdsE ["u1"] 0 fdbWriteFailing =
        .error { error := "disk",
                 name := "Delete pending user group memberships by user ids" } ∧
    filterProjectsByUserMembershipE "u1" "g1" ["p1"] fdbAllOk =
        .ok (filterProjectsByUserMembership "u1" "g1" ["p1"]
          { projectMemberships := [], userGroupMemberships := [],
            groupProjectMemberships := [], users := [], groups := [],
            userEncryptionKeys := [] }) :=
  ⟨(dal_storage_failure_semantics "u1" "g1" "p1" ["p1"] ["alice"] ["u1"] 0
      fdbAllFailing).1.1 "boom" rfl,
   (dal_storage_failure_semantics "u1" "g1" "p1" ["p1"] ["alice"] ["u1"] 0
      fdbAllFailing).2.1.1 "boom" rfl,
   (dal_storage_failure_semantics "u1" "g1" "p1" ["p1"] ["alice"] ["u1"] 0
      fdbAllFailing).2.2.1.1 "boom" rfl,
   (dal_storage_failure_semantics "u1" "g1" "p1" ["p1"] ["alice"] ["u1"] 0
      fdbAllFailing).2.2.2.1 "boom" rfl,
   (dal_storage_failure_semantics "u1" "g1" "p1" ["p1"] ["alice"] ["u1"] 0
      fdbWriteFailing).2.2.2.2.2.2.1 [] [] [] "disk" rfl rfl rfl rfl,
   (dal_storage_failure_semantics "u1" "g1" "p1" ["p1"] ["alice"] ["u1"] 0
      fdbAllOk).1.2.2.2 [] [] [] rfl rfl rfl⟩
